import Mathlib

/-!
Verification development for a single-slot speculative-position trading bot.

The embedding below translates the decision core of the repository:
* `src/modules/messageProcessor.js` (dexscreener-preferring variant): address
  extraction (`extractSolanaAddresses`, `isValidSolanaAddress`) and the
  quiet-period verification gate (`processMessage`);
* the full trader module (`SolanaTrader`): `handlePurchase`, `handleSell`,
  `verifyTransactionSuccess`, `getPriceAtTime`, `decideSell`, and the body of
  the `setInterval` callback in `startTokenMonitoring` (here `monitorTick`).

Modelling conventions:
* JS numbers are embedded as `ℚ` (prices, balances, amounts) and millisecond
  epoch timestamps as `Int` (ISO timestamp strings are only ever compared via
  `new Date(...)` subtraction, i.e. as millisecond numbers).
* Network I/O is passed in as explicit oracle data (`BuyEnv`, `SellEnv`,
  fetched messages, fetched prices).
* `getTokenPrice` returns the number `0` on failure and a numeric string on
  success; the monitoring loop distinguishes the two with strict equality
  (`currentPrice === 0`), so a fetched price is embedded as `Option ℚ`
  (`none` = the failure value `0`).
-/

namespace SolanaBot

/-! ## Address extraction (`messageProcessor.js`) -/

/-- The base58 alphabet of `SOLANA_ADDRESS_REGEX_BASE58`:
`[1-9A-HJ-NP-Za-km-z]` (no `0`, `O`, `I`, `l`). -/
def isB58 (c : Char) : Bool :=
  ('1' ≤ c && c ≤ '9') || ('A' ≤ c && c ≤ 'H') || ('J' ≤ c && c ≤ 'N') ||
  ('P' ≤ c && c ≤ 'Z') || ('a' ≤ c && c ≤ 'k') || ('m' ≤ c && c ≤ 'z')

/-- The character class `[1-9A-HJ-NP-Za-km-z]` under the regex flag `i`
(the `dexscreenerRegex` is case-insensitive, which in JS also closes the
class under case swapping): this is exactly `[1-9A-Za-z]`. -/
def isAl59 (c : Char) : Bool :=
  ('1' ≤ c && c ≤ '9') || ('A' ≤ c && c ≤ 'Z') || ('a' ≤ c && c ≤ 'z')

def pumpL : List Char := ['p', 'u', 'm', 'p']

/-- Length of the maximal base58 run starting at index `i`. -/
def b58runLen (s : List Char) (i : Nat) : Nat :=
  ((s.drop i).takeWhile isB58).length

lemma b58runLen_pos (s : List Char) (i : Nat) (h : i < s.length)
    (hb : isB58 (s.get ⟨i, h⟩) = true) : 0 < b58runLen s i := by
  unfold b58runLen
  rw [List.drop_eq_getElem_cons h, List.takeWhile_cons]
  simp only [List.get_eq_getElem] at hb
  rw [hb]
  simp

lemma b58runLen_le (s : List Char) (i : Nat) :
    b58runLen s i ≤ s.length - i := by
  unfold b58runLen
  have h := (List.takeWhile_sublist (l := s.drop i) (p := isB58)).length_le
  simpa using h

/-- First syntactically valid match of the global regex
`/[1-9A-HJ-NP-Za-km-z]{32,44}(?:pump)?/g` scanned from index `i`, as in the
`for` loop of `extractSolanaAddresses` over `messageText.match(...)`.
The greedy quantifier takes `min (run length) 44` characters and the optional
`pump` literal is appended when the next four characters spell it; a match is
valid (`isValidSolanaAddress`) exactly when its length is at most 44, since
every match is at least 32 characters of base58 text (`p`,`u`,`m` are all in
the alphabet, so an appended suffix still decodes). Invalid (too-long)
matches are skipped and scanning resumes after them, like the regex's
`lastIndex`. -/
def scanValidGo (s : List Char) : Nat → Nat → Option (List Char)
  | 0, _ => none
  | fuel + 1, i =>
    if hlt : i < s.length then
      if isB58 (s.get ⟨i, hlt⟩) then
        if 32 ≤ b58runLen s i then
          let t := min (b58runLen s i) 44
          let len := if (s.drop (i + t)).take 4 = pumpL then t + 4 else t
          if len ≤ 44 then some ((s.drop i).take len)
          else scanValidGo s fuel (i + len)
        else scanValidGo s fuel (i + b58runLen s i)
      else scanValidGo s fuel (i + 1)
    else none

/-- The scan with enough fuel: every step advances the position by at least
one, so `s.length + 1` steps always reach the end of the text. -/
def scanValid (s : List Char) (i : Nat) : Option (List Char) :=
  scanValidGo s (s.length + 1) i

/-- The literal part of `dexscreenerRegex`, lower-cased. -/
def dexLit : List Char := "dexscreener.com/solana/".toList

/-- Length of the maximal `[1-9A-Za-z]` run starting at index `i`. -/
def al59runLen (s : List Char) (i : Nat) : Nat :=
  ((s.drop i).takeWhile isAl59).length

/-- Attempt of `dexscreenerRegex` at index `i`: the 23-character literal
matched case-insensitively, followed by a greedy capture of 32 to 44
characters of the (case-closed) class. -/
def dexCapAt (s : List Char) (i : Nat) : Option (List Char) :=
  if ((s.drop i).take 23).map Char.toLower = dexLit then
    if 32 ≤ al59runLen s (i + 23) then
      some ((s.drop (i + 23)).take (min (al59runLen s (i + 23)) 44))
    else none
  else none

/-- `messageText.match(dexscreenerRegex)`: the leftmost position where the
whole pattern matches, yielding its capture group. -/
def dexFirst (s : List Char) : Option (List Char) :=
  (List.range s.length).findSome? (dexCapAt s)

/-- `address.endsWith('pump')`. -/
def endsPump (a : List Char) : Bool := a.reverse.take 4 = ['p', 'm', 'u', 'p']

/-- `isValidSolanaAddress`: non-empty (JS falsiness of `!address`), length in
`[32,44]`, then either the `pump` suffix or a clean `bs58.decode`.
`bs58.decode` throws exactly on characters outside the base58 alphabet, so
the try/catch is embedded as an all-characters check. -/
def isValidSolanaAddress (a : List Char) : Bool :=
  if a.length = 0 then false
  else if a.length < 32 || 44 < a.length then false
  else if endsPump a then true
  else a.all isB58

/-- `extractSolanaAddresses` (dexscreener-preferring variant): try the
dexscreener URL pattern first and return its capture when valid; otherwise
return the first valid plain base58 match. -/
def extractSolanaAddresses (t : List Char) : Option (List Char) :=
  if t.length = 0 then none
  else
    match dexFirst t with
    | some cap => if isValidSolanaAddress cap then some cap else scanValid t 0
    | none => scanValid t 0

/-- `processMessage` after the 30-second suspension: extraction from the
original text, then the re-fetch (`getLastMessage`, `none` when the channel
cannot be reached), then membership of the candidate among the extraction
results of the fetched texts (`lastMessageAddress.includes(address)`). -/
def processMessage (text : List Char) (lastMessages : Option (List (List Char))) :
    Option (List Char) :=
  match extractSolanaAddresses text with
  | none => none
  | some address =>
    match lastMessages with
    | none => none
    | some msgs =>
      if (msgs.map extractSolanaAddresses).contains (some address) then some address
      else none

/-- `a` occurs as a contiguous substring of `s`. -/
def hasSub (s a : List Char) : Bool :=
  (List.range (s.length + 1)).any (fun i => (s.drop i).take a.length == a)

/-! ## Trader state (`SolanaTrader`, full-featured variant) -/

/-- An entry of `priceHistory`: `{timestamp, price}` with the ISO timestamp
as its millisecond epoch value. -/
structure PriceSample where
  timestamp : Int
  price : ℚ
deriving DecidableEq, Repr

/-- The `purchasedToken` record. `pricePerTokenUSD` is set only on the
normal purchase path, not on the timeout-recovery path, hence optional. -/
structure PurchasedToken where
  tokenAddress : String
  purchaseTime : Int
  messageTime : Int
  purchasePrice : ℚ
  tokenAmount : ℚ
  solAmount : ℚ
  pricePerTokenUSD : Option ℚ
deriving DecidableEq, Repr

/-- The two module-level mutable variables `purchasedToken` and
`priceHistory`. -/
structure TraderState where
  purchasedToken : Option PurchasedToken
  priceHistory : List PriceSample
deriving DecidableEq, Repr

/-- The part of `connection.getTransaction(signature)` inspected by
`verifyTransactionSuccess`: whether `meta.err` is non-null. `none` embeds
both a failed fetch and a not-found transaction. -/
structure TxDetails where
  metaErr : Bool
deriving DecidableEq, Repr

/-- `verifyTransactionSuccess`: the transaction must be fetchable with no
on-chain error, and the re-read token balance must exceed
`expectedMinAmount`; on success the verified balance is reported. -/
def verifyTransactionSuccess (txDetails : Option TxDetails)
    (actualBalance expectedMinAmount : ℚ) : Option ℚ :=
  match txDetails with
  | some d => if d.metaErr = false ∧ expectedMinAmount < actualBalance
      then some actualBalance else none
  | none => none

/-- Outcome of the send/confirm phase of `handlePurchase`. A `thrown` error
carries whether its message is timeout-class, the optional
`error.signature`, and the data the recovery check would observe: the
fetched transaction and the token balance at verification time. -/
inductive SendOutcome where
  | confirmedErr
  | confirmedOk
  | thrown (timeoutClass : Bool) (sig : Option String)
      (txDetails : Option TxDetails) (balanceAtVerify : ℚ)
deriving DecidableEq, Repr

/-- Oracle data consumed by one `handlePurchase` call: wallet balance, the
Jupiter quote (`none` when `quoteData.error || !quoteData.outAmount`),
whether `/swap` returned a transaction, the send/confirm outcome, and the
post-trade observations `getTokenPrice` (as stored) and `getTokenBalance`. -/
structure BuyEnv where
  balanceLamports : ℚ
  quoteOut : Option ℚ
  swapTxOk : Bool
  send : SendOutcome
  initialPrice : ℚ
  actualBalance : ℚ
deriving DecidableEq, Repr

/-- The distinguishable results of `handlePurchase`. `purchased` carries the
recorded token and the `outAmount` field of the returned object. -/
inductive BuyResult where
  | alreadyHolding (currentToken : String)
  | insufficientBalance
  | noRoutes
  | noSwapTx
  | txFailedOnChain
  | purchased (token : PurchasedToken) (outAmount : ℚ)
  | purchaseError
deriving DecidableEq, Repr

/-- `handlePurchase(tokenAddress, msg)`. Control flow follows the source:
held-slot guard, balance pre-check against
`purchase_amount_sol * LAMPORTS_PER_SOL`, quote, swap build, send/confirm,
on-chain error check; on success the actual re-read balance is recorded as
`tokenAmount` while the returned `outAmount` is the quote's value. A thrown
timeout-class error with a signature triggers `verifyTransactionSuccess`
(with `expectedMinAmount = 0`) and only a successful verification upgrades
the call to a purchase, recording and returning the verified balance. -/
def handlePurchase (s : TraderState) (tokenAddress : String) (msgDate : Option Int)
    (now : Int) (purchaseAmountSol : ℚ) (env : BuyEnv) : TraderState × BuyResult :=
  match s.purchasedToken with
  | some t => (s, .alreadyHolding t.tokenAddress)
  | none =>
    if env.balanceLamports < purchaseAmountSol * 1000000000 then (s, .insufficientBalance)
    else
      match env.quoteOut with
      | none => (s, .noRoutes)
      | some outAmount =>
        match env.swapTxOk with
        | false => (s, .noSwapTx)
        | true =>
          match env.send with
          | .confirmedErr => (s, .txFailedOnChain)
          | .confirmedOk =>
            let messageTime := match msgDate with | some d => d * 1000 | none => now
            let tok : PurchasedToken :=
              ⟨tokenAddress, now, messageTime, env.initialPrice, env.actualBalance,
                purchaseAmountSol, some env.initialPrice⟩
            (⟨some tok, [⟨now, env.initialPrice⟩]⟩, .purchased tok outAmount)
          | .thrown timeoutClass sig txDetails balanceAtVerify =>
            match timeoutClass with
            | true =>
              match sig with
              | some _ =>
                match verifyTransactionSuccess txDetails balanceAtVerify 0 with
                | some verifiedBalance =>
                  let messageTime := match msgDate with | some d => d * 1000 | none => now
                  let tok : PurchasedToken :=
                    ⟨tokenAddress, now, messageTime, env.initialPrice, verifiedBalance,
                      purchaseAmountSol, none⟩
                  (⟨some tok, [⟨now, env.initialPrice⟩]⟩, .purchased tok verifiedBalance)
                | none => (s, .purchaseError)
              | none => (s, .purchaseError)
            | false => (s, .purchaseError)

/-- Outcome of the send/confirm phase of `handleSell`. The `catch` block of
`handleSell` has no recovery logic, so the data a recovery check would need
is carried only to show it is ignored. -/
inductive SellSend where
  | confirmedErr
  | confirmedOk
  | thrown (timeoutClass : Bool) (hasSig : Bool) (txFetchedOk : Bool)
      (balanceIncreased : Bool)
deriving DecidableEq, Repr

/-- Oracle data consumed by one `handleSell` call. The quote is a function
of the requested input amount, because the source requests it for the
freshly re-read `currentTokenBalance`. -/
structure SellEnv where
  currentTokenBalance : ℚ
  quoteOut : ℚ → Option ℚ
  swapTxOk : Bool
  send : SellSend

/-- The distinguishable results of `handleSell`. -/
inductive SellResult where
  | notFound
  | noTokens
  | noRoutes
  | noSwapTx
  | txFailedOnChain
  | sold (solReceived profit : ℚ) (sellReason : String)
  | sellError
deriving DecidableEq, Repr

/-- `handleSell(tokenAddress, sellReason)`: record guard, re-read balance
(selling all of it), quote for that balance, swap build, send/confirm,
on-chain error check; only on a confirmed success are `purchasedToken` and
`priceHistory` cleared. `solReceived` is the quoted `outAmount / 1e9`. Any
thrown error is reported as a plain failure. -/
def handleSell (s : TraderState) (tokenAddress : String) (sellReason : String)
    (env : SellEnv) : TraderState × SellResult :=
  match s.purchasedToken with
  | none => (s, .notFound)
  | some tok =>
    if tok.tokenAddress ≠ tokenAddress then (s, .notFound)
    else if env.currentTokenBalance = 0 then (s, .noTokens)
    else
      match env.quoteOut env.currentTokenBalance with
      | none => (s, .noRoutes)
      | some outAmount =>
        match env.swapTxOk with
        | false => (s, .noSwapTx)
        | true =>
          match env.send with
          | .confirmedErr => (s, .txFailedOnChain)
          | .thrown _ _ _ _ => (s, .sellError)
          | .confirmedOk =>
            let solReceived := outAmount / 1000000000
            (⟨none, []⟩, .sold solReceived (solReceived - tok.solAmount) sellReason)

/-! ## Price history and the exit decision (`getPriceAtTime`, `decideSell`) -/

/-- `getPriceAtTime(minutesAgo)`: price of the history entry closest (by
absolute millisecond difference, earliest entry winning ties) to
`Date.now() - minutesAgo * 60 * 1000`; `0` on empty history. -/
def getPriceAtTime (h : List PriceSample) (now : Int) (minutesAgo : Int) : ℚ :=
  match h with
  | [] => 0
  | c :: rest =>
    let target := now - minutesAgo * 60 * 1000
    (rest.foldl
      (fun closest e =>
        if (e.timestamp - target).natAbs < (closest.timestamp - target).natAbs
        then e else closest) c).price

/-- The record returned by `decideSell`. -/
structure SellDecision where
  sellAt : String
  returnRate : ℚ
  finalCapital : ℚ
deriving DecidableEq, Repr

/-- `decideSell(currentPrice, capital)` over the module state: the no-data
guard, the nearest-sample ratios at 5, 10 and 20 minutes (each `0` when its
reference price is not positive), then the two drop rules and the hold
fallback. -/
def decideSell (s : TraderState) (now : Int) (currentPrice capital : ℚ) :
    SellDecision :=
  match s.purchasedToken with
  | none => ⟨"no data", 0, 0⟩
  | some tok =>
    if s.priceHistory.length = 0 then ⟨"no data", 0, 0⟩
    else
      let price5m := getPriceAtTime s.priceHistory now 5
      let price10m := getPriceAtTime s.priceHistory now 10
      let price20m := getPriceAtTime s.priceHistory now 20
      let r5 := if 0 < price5m then currentPrice / price5m else 0
      let r10 := if 0 < price10m then currentPrice / price10m else 0
      let r20 := if 0 < price20m then currentPrice / price20m else 0
      let rCurrent := if 0 < tok.purchasePrice then currentPrice / tok.purchasePrice else 0
      if r10 < r5 ∧ 0 < r10 then ⟨"10m (drop detected)", r10, capital * r10⟩
      else if r20 < r10 ∧ 0 < r10 then ⟨"10m (pre-20m drop)", r10, capital * r10⟩
      else ⟨"hold", rCurrent, capital * rCurrent⟩

/-! ## The monitoring tick (`startTokenMonitoring` interval body) -/

/-- `priceHistory.slice(-720)` applied after the push: keep the most recent
720 samples, dropping the oldest first. -/
def trunc720 (h : List PriceSample) : List PriceSample :=
  if 720 < h.length then h.drop (h.length - 720) else h

/-- The quick-sell test `currentPrice / purchasedToken.purchasePrice >= 1.5`
under JS division: a positive price over a zero entry price is `Infinity`
and triggers; `0 / 0` is `NaN` and does not. -/
def quickTrigger (currentPrice purchasePrice : ℚ) : Bool :=
  if purchasePrice = 0 then decide (0 < currentPrice)
  else decide (3 / 2 ≤ currentPrice / purchasePrice)

/-- Which branch of the tick body fires after the history push. -/
inductive TickAction where
  | quickSell
  | strategicSell (sellAt : String)
  | hold
deriving DecidableEq, Repr

/-- The decision structure of the tick body: the quick-sell check first,
then `decideSell` with `sellDecision.sellAt !== "hold"` as the strategic
trigger. `h` is the history as of the check (the current sample already
pushed). -/
def tickDecision (tok : PurchasedToken) (h : List PriceSample) (now : Int)
    (currentPrice : ℚ) : TickAction :=
  if quickTrigger currentPrice tok.purchasePrice then .quickSell
  else
    let d := decideSell ⟨some tok, h⟩ now currentPrice tok.solAmount
    if d.sellAt ≠ "hold" then .strategicSell d.sellAt else .hold

/-- One execution of the `setInterval` body of `startTokenMonitoring`:
no-op without a held token; no-op when `getTokenPrice` reported failure
(`currentPrice === 0`); otherwise push the sample, truncate to 720, run the
quick-sell then strategic-sell checks, and after either sell attempt set
`purchasedToken = null` regardless of the sell's outcome (the source does
this explicitly, "making sure the purchasedToken is null"). -/
def monitorTick (s : TraderState) (now : Int) (fetchedPrice : Option ℚ)
    (sellEnv : SellEnv) : TraderState :=
  match s.purchasedToken with
  | none => s
  | some tok =>
    match fetchedPrice with
    | none => s
    | some currentPrice =>
      let h2 := trunc720 (s.priceHistory ++ [⟨now, currentPrice⟩])
      let s1 : TraderState := ⟨some tok, h2⟩
      match tickDecision tok h2 now currentPrice with
      | .quickSell =>
        { (handleSell s1 tok.tokenAddress "Quick sell - 50% gain" sellEnv).1 with
            purchasedToken := none }
      | .strategicSell r =>
        { (handleSell s1 tok.tokenAddress ("Strategic sell - " ++ r) sellEnv).1 with
            purchasedToken := none }
      | .hold => s1

/-! ## The simulated-trader variant (`solanaTrader.js`) and the config
denylist (README `excluded_tokens`) -/

/-- Results of the simulated `handlePurchase` keyed by the session-lifetime
`purchasedTokens` map. -/
inductive SimBuyResult where
  | alreadyPurchased (purchaseTime : Int)
  | insufficientBalance
  | simulated
deriving DecidableEq, Repr

/-- The simulated-trader `handlePurchase`: rejects a token already in the
`purchasedTokens` map, checks the balance, then marks the token purchased. -/
def simHandlePurchase (purchasedTokens : List (String × Int)) (tokenAddress : String)
    (balanceLamports purchaseAmountSol : ℚ) (now : Int) :
    List (String × Int) × SimBuyResult :=
  match purchasedTokens.lookup tokenAddress with
  | some t => (purchasedTokens, .alreadyPurchased t)
  | none =>
    if balanceLamports < purchaseAmountSol * 1000000000 then
      (purchasedTokens, .insufficientBalance)
    else ((tokenAddress, now) :: purchasedTokens, .simulated)

/-- The `excluded_tokens` denylist shipped in the repository's documented
`config/config.json` (README). No code path reads it. -/
def excluded_tokens : List String :=
  ["Ey2zpSAJ5gVLfYDD5WjccbksJD3E9jPFMPaJ8wxvpump",
   "jZGmEwwaW94iiU32wa6RADgVEhdpQpa6MtGERfJpump",
   "12XvRbmvA3AY8La3brnQGcMR5HBp7Cn3Fxc5kKiQ86FY",
   "5bXVGNnGhCFAK9KPh1S9whFkhVxZy1mREWFbqB499xUP",
   "T1Hf5w9772oCkp8cnhoSdKdfjsKieVGEnDuNJeEpump"]

/-! ## Spec-side definitions used to compare code with claims -/

/-- Whether a `handlePurchase` result is a successful purchase. -/
def buySucceeded : BuyResult → Bool
  | .purchased _ _ => true
  | _ => false

/-- Whether a `handleSell` result is a confirmed sale. -/
def sellSucceeded : SellResult → Bool
  | .sold _ _ _ => true
  | _ => false

/-- The claim's lookback ratios: current price over the nearest-sample price
at `minutesAgo`, and `0` when the reference price is zero or missing. -/
def specR (h : List PriceSample) (now minutesAgo : Int) (currentPrice : ℚ) : ℚ :=
  if 0 < getPriceAtTime h now minutesAgo
  then currentPrice / getPriceAtTime h now minutesAgo else 0

/-- Claim C2's exit decision exactly as stated: quick gain iff
`currentPrice / entryPrice ≥ 1.5` (with the mathematical convention that a
quotient with zero denominator is `0`), then the two trend rules, else
hold. The reasons "quick gain", "short-term drop" and "pre-drop from 20m"
are the spec's names for the branches carrying the source's strings. -/
def specTickDecision (entryPrice : ℚ) (h : List PriceSample) (now : Int)
    (currentPrice : ℚ) : TickAction :=
  if 3 / 2 ≤ currentPrice / entryPrice then .quickSell
  else if specR h now 10 currentPrice < specR h now 5 currentPrice ∧
      0 < specR h now 10 currentPrice then .strategicSell "10m (drop detected)"
  else if specR h now 20 currentPrice < specR h now 10 currentPrice ∧
      0 < specR h now 10 currentPrice then .strategicSell "10m (pre-20m drop)"
  else .hold

/-- The amended form of claim C2's decision: identical except that the
quick rule uses the source language's division (a positive price over a
zero entry price compares as `Infinity ≥ 1.5`). -/
def specTickDecisionAmended (entryPrice : ℚ) (h : List PriceSample) (now : Int)
    (currentPrice : ℚ) : TickAction :=
  if quickTrigger currentPrice entryPrice then .quickSell
  else if specR h now 10 currentPrice < specR h now 5 currentPrice ∧
      0 < specR h now 10 currentPrice then .strategicSell "10m (drop detected)"
  else if specR h now 20 currentPrice < specR h now 10 currentPrice ∧
      0 < specR h now 10 currentPrice then .strategicSell "10m (pre-20m drop)"
  else .hold

/-- The dexscreener-link extraction path including the validity filter the
source applies to its capture. -/
def dexAccepted (t : List Char) : Option (List Char) :=
  match dexFirst t with
  | some cap => if isValidSolanaAddress cap then some cap else none
  | none => none

/-- The text contains 32 consecutive base58-alphabet characters, i.e. a
base58 substring of length in `[32,44]` in the sense of claim C8. -/
def hasValid32Window (t : List Char) : Bool :=
  (List.range t.length).any
    (fun i => (((t.drop i).take 32).length == 32) && ((t.drop i).take 32).all isB58)

/-! ## Extraction lemmas -/

lemma take_of_le_takeWhile (p : Char → Bool) :
    ∀ (l : List Char) (k : Nat), k ≤ (l.takeWhile p).length →
      l.take k = (l.takeWhile p).take k := by
  intro l
  induction l with
  | nil => intro k hk; rfl
  | cons a l ih =>
    intro k hk
    cases hp : p a with
    | false =>
      simp only [List.takeWhile_cons, hp] at hk ⊢
      simp at hk
      simp [hk]
    | true =>
      simp only [List.takeWhile_cons, hp, if_true] at hk ⊢
      cases k with
      | zero => simp
      | succ k =>
        simp only [List.take_succ_cons]
        rw [ih k (by simpa using hk)]

lemma all_take_takeWhile (p : Char → Bool) (l : List Char) (k : Nat) :
    ((l.takeWhile p).take k).all p = true := by
  rw [List.all_eq_true]
  intro x hx
  exact List.mem_takeWhile_imp (List.mem_of_mem_take hx)

lemma b58runLen_le_drop (s : List Char) (i : Nat) :
    b58runLen s i ≤ (s.drop i).length := by
  unfold b58runLen
  exact (List.takeWhile_sublist isB58).length_le

lemma window_of_run (s : List Char) (i : Nat) (h32 : 32 ≤ b58runLen s i) :
    ((s.drop i).take 32).length = 32 ∧ ((s.drop i).take 32).all isB58 = true := by
  have hle := b58runLen_le_drop s i
  constructor
  · rw [List.length_take]; omega
  · rw [take_of_le_takeWhile isB58 (s.drop i) 32 h32]
    exact all_take_takeWhile isB58 (s.drop i) 32

lemma hasValid32Window_of_run (s : List Char) (i : Nat)
    (h32 : 32 ≤ b58runLen s i) : hasValid32Window s = true := by
  have hle := b58runLen_le s i
  have hi : i < s.length := by omega
  obtain ⟨hlen, hall⟩ := window_of_run s i h32
  unfold hasValid32Window
  rw [List.any_eq_true]
  refine ⟨i, List.mem_range.mpr hi, ?_⟩
  rw [Bool.and_eq_true, beq_iff_eq]
  exact ⟨hlen, hall⟩

lemma scanValidGo_none (s : List Char) (hw : hasValid32Window s = false) :
    ∀ fuel i, scanValidGo s fuel i = none := by
  intro fuel
  induction fuel with
  | zero => intro i; rfl
  | succ fuel ih =>
    intro i
    simp only [scanValidGo]
    by_cases hlt : i < s.length
    · rw [dif_pos hlt]
      by_cases hb : isB58 (s.get ⟨i, hlt⟩) = true
      · rw [if_pos hb]
        by_cases h32 : 32 ≤ b58runLen s i
        · exact absurd (hasValid32Window_of_run s i h32) (by rw [hw]; simp)
        · rw [if_neg h32]
          exact ih _
      · rw [if_neg hb]
        exact ih _
    · rw [dif_neg hlt]

lemma scanValid_of_no_window (s : List Char) (hw : hasValid32Window s = false)
    (i : Nat) : scanValid s i = none :=
  scanValidGo_none s hw (s.length + 1) i

lemma scanValidGo_sound (s : List Char) :
    ∀ fuel i a, scanValidGo s fuel i = some a →
      32 ≤ a.length ∧ a.length ≤ 44 ∧ a.all isB58 = true ∧
      ∃ j, j ≤ s.length ∧ (s.drop j).take a.length = a := by
  intro fuel
  induction fuel with
  | zero => intro i a h; cases h
  | succ fuel ih =>
    intro i a h
    simp only [scanValidGo] at h
    by_cases hlt : i < s.length
    · rw [dif_pos hlt] at h
      by_cases hb : isB58 (s.get ⟨i, hlt⟩) = true
      · rw [if_pos hb] at h
        by_cases h32 : 32 ≤ b58runLen s i
        · rw [if_pos h32] at h
          try dsimp only at h
          have hLle := b58runLen_le_drop s i
          have ht32 : 32 ≤ min (b58runLen s i) 44 := le_min h32 (by norm_num)
          have ht44 : min (b58runLen s i) 44 ≤ 44 := min_le_right _ _
          have htle : min (b58runLen s i) 44 ≤ (s.drop i).length :=
            le_trans (min_le_left _ _) hLle
          by_cases hpump :
              (s.drop (i + min (b58runLen s i) 44)).take 4 = pumpL
          · rw [if_pos hpump] at h
            by_cases hlen : min (b58runLen s i) 44 + 4 ≤ 44
            · rw [if_pos hlen] at h
              injection h with h
              subst h
              have h4 : ((s.drop (i + min (b58runLen s i) 44)).take 4).length = 4 := by
                rw [hpump]; rfl
              rw [List.length_take, List.length_drop] at h4
              have hd : (s.drop i).length = s.length - i := List.length_drop i s
              have hfit : min (b58runLen s i) 44 + 4 ≤ (s.drop i).length := by omega
              refine ⟨?_, ?_, ?_, i, le_of_lt hlt, ?_⟩
              · rw [List.length_take]; omega
              · rw [List.length_take]; omega
              · rw [List.take_add, List.all_append, Bool.and_eq_true]
                constructor
                · rw [take_of_le_takeWhile isB58 (s.drop i)
                    (min (b58runLen s i) 44) (min_le_left _ _)]
                  exact all_take_takeWhile isB58 (s.drop i) _
                · rw [List.drop_drop, hpump]
                  decide
              · rw [List.length_take]
                congr 1
                omega
            · rw [if_neg hlen] at h
              exact ih _ _ h
          · rw [if_neg hpump] at h
            rw [if_pos ht44] at h
            injection h with h
            subst h
            refine ⟨?_, ?_, ?_, i, le_of_lt hlt, ?_⟩
            · rw [List.length_take]; omega
            · rw [List.length_take]; omega
            · rw [take_of_le_takeWhile isB58 (s.drop i)
                (min (b58runLen s i) 44) (min_le_left _ _)]
              exact all_take_takeWhile isB58 (s.drop i) _
            · rw [List.length_take]
              congr 1
              omega
        · rw [if_neg h32] at h
          exact ih _ _ h
      · rw [if_neg hb] at h
        exact ih _ _ h
    · rw [dif_neg hlt] at h
      cases h

lemma isValid_elim (a : List Char) (h : isValidSolanaAddress a = true) :
    32 ≤ a.length ∧ a.length ≤ 44 ∧ (endsPump a = true ∨ a.all isB58 = true) := by
  unfold isValidSolanaAddress at h
  by_cases h0 : a.length = 0
  · rw [if_pos h0] at h; cases h
  · rw [if_neg h0] at h
    by_cases hrange : a.length < 32 || 44 < a.length
    · rw [if_pos hrange] at h; cases h
    · rw [if_neg hrange] at h
      simp only [Bool.or_eq_true, decide_eq_true_eq, not_or] at hrange
      by_cases hp : endsPump a = true
      · rw [if_pos hp] at h
        exact ⟨by omega, by omega, Or.inl hp⟩
      · rw [if_neg hp] at h
        exact ⟨by omega, by omega, Or.inr h⟩

lemma dexCapAt_shape (s : List Char) (i : Nat) (cap : List Char)
    (h : dexCapAt s i = some cap) :
    ∃ j, j ≤ s.length ∧ (s.drop j).take cap.length = cap := by
  unfold dexCapAt at h
  by_cases hlit : ((s.drop i).take 23).map Char.toLower = dexLit
  · rw [if_pos hlit] at h
    by_cases h32 : 32 ≤ al59runLen s (i + 23)
    · rw [if_pos h32] at h
      injection h with h
      subst h
      have hLle : al59runLen s (i + 23) ≤ (s.drop (i + 23)).length := by
        unfold al59runLen
        exact (List.takeWhile_sublist isAl59).length_le
      have hj : i + 23 ≤ s.length := by
        have hlenlit : (((s.drop i).take 23).map Char.toLower).length = 23 := by
          rw [hlit]; rfl
        rw [List.length_map, List.length_take, List.length_drop] at hlenlit
        omega
      refine ⟨i + 23, hj, ?_⟩
      rw [List.length_take]
      congr 1
      have : min (al59runLen s (i + 23)) 44 ≤ (s.drop (i + 23)).length :=
        le_trans (min_le_left _ _) hLle
      omega
    · rw [if_neg h32] at h; cases h
  · rw [if_neg hlit] at h; cases h

lemma dexFirst_shape (s : List Char) (cap : List Char) (h : dexFirst s = some cap) :
    ∃ j, j ≤ s.length ∧ (s.drop j).take cap.length = cap := by
  unfold dexFirst at h
  obtain ⟨i, hmem, hcap⟩ := List.exists_of_findSome?_eq_some h
  exact dexCapAt_shape s i cap hcap

lemma hasSub_intro (s a : List Char)
    (h : ∃ j, j ≤ s.length ∧ (s.drop j).take a.length = a) : hasSub s a = true := by
  obtain ⟨j, hj, hja⟩ := h
  unfold hasSub
  rw [List.any_eq_true]
  exact ⟨j, List.mem_range.mpr (by omega), by rw [beq_iff_eq]; exact hja⟩

lemma extract_sub (t a : List Char) (h : extractSolanaAddresses t = some a) :
    hasSub t a = true := by
  unfold extractSolanaAddresses at h
  by_cases h0 : t.length = 0
  · rw [if_pos h0] at h; cases h
  · rw [if_neg h0] at h
    cases hdex : dexFirst t with
    | some cap =>
      rw [hdex] at h
      dsimp only at h
      by_cases hv : isValidSolanaAddress cap = true
      · rw [if_pos hv] at h
        injection h with h
        subst h
        exact hasSub_intro t cap (dexFirst_shape t cap hdex)
      · rw [if_neg hv] at h
        unfold scanValid at h
        obtain ⟨_, _, _, hj⟩ := scanValidGo_sound t _ 0 a h
        exact hasSub_intro t a hj
    | none =>
      rw [hdex] at h
      dsimp only at h
      unfold scanValid at h
      obtain ⟨_, _, _, hj⟩ := scanValidGo_sound t _ 0 a h
      exact hasSub_intro t a hj

lemma extract_eq_scan (t : List Char) (hda : dexAccepted t = none) :
    extractSolanaAddresses t = scanValid t 0 := by
  unfold dexAccepted at hda
  unfold extractSolanaAddresses
  by_cases h0 : t.length = 0
  · rw [if_pos h0]
    unfold scanValid
    simp only [scanValidGo]
    rw [dif_neg (by omega)]
  · rw [if_neg h0]
    cases hdex : dexFirst t with
    | none => rfl
    | some cap =>
      rw [hdex] at hda
      dsimp only at hda ⊢
      by_cases hv : isValidSolanaAddress cap = true
      · rw [if_pos hv] at hda; cases hda
      · rw [if_neg hv]

/-! ## Shared structural lemmas about the trader operations -/

lemma verify_some_elim (txd : Option TxDetails) (bv vb : ℚ)
    (h : verifyTransactionSuccess txd bv 0 = some vb) :
    txd = some ⟨false⟩ ∧ 0 < bv ∧ vb = bv := by
  cases txd with
  | none => cases h
  | some d =>
    unfold verifyTransactionSuccess at h
    dsimp at h
    split_ifs at h with hc
    obtain ⟨h1, h2⟩ := hc
    obtain ⟨me⟩ := d
    dsimp at h1
    subst h1
    cases h
    exact ⟨rfl, h2, rfl⟩

lemma handlePurchase_cases (s : TraderState) (ta : String) (md : Option Int)
    (now : Int) (amt : ℚ) (env : BuyEnv) :
    ((handlePurchase s ta md now amt env).1 = s ∧
      buySucceeded (handlePurchase s ta md now amt env).2 = false) ∨
    (∃ tok q, (handlePurchase s ta md now amt env).2 = .purchased tok q ∧
      (handlePurchase s ta md now amt env).1 =
        ⟨some tok, [⟨now, env.initialPrice⟩]⟩) := by
  obtain ⟨pt, ph⟩ := s
  obtain ⟨bal, qo, sw, snd, price, ab⟩ := env
  unfold handlePurchase buySucceeded
  cases pt with
  | some t => exact Or.inl ⟨rfl, rfl⟩
  | none =>
    dsimp
    by_cases hbal : bal < amt * 1000000000
    · rw [if_pos hbal]; exact Or.inl ⟨rfl, rfl⟩
    · rw [if_neg hbal]
      cases qo with
      | none => exact Or.inl ⟨rfl, rfl⟩
      | some q =>
        cases sw with
        | false => exact Or.inl ⟨rfl, rfl⟩
        | true =>
          cases snd with
          | confirmedErr => exact Or.inl ⟨rfl, rfl⟩
          | confirmedOk => exact Or.inr ⟨_, _, rfl, rfl⟩
          | thrown tc sig txd bv =>
            cases tc with
            | false => exact Or.inl ⟨rfl, rfl⟩
            | true =>
              cases sig with
              | none => exact Or.inl ⟨rfl, rfl⟩
              | some sg =>
                dsimp
                cases verifyTransactionSuccess txd bv 0 with
                | none => exact Or.inl ⟨rfl, rfl⟩
                | some vb => exact Or.inr ⟨_, _, rfl, rfl⟩

lemma handleSell_cases (s : TraderState) (ta reason : String) (env : SellEnv) :
    ((handleSell s ta reason env).1 = s ∧
      sellSucceeded (handleSell s ta reason env).2 = false) ∨
    (∃ sr p, (handleSell s ta reason env).2 = .sold sr p reason ∧
      (handleSell s ta reason env).1 = ⟨none, []⟩) := by
  obtain ⟨pt, ph⟩ := s
  obtain ⟨bal, qf, sw, snd⟩ := env
  unfold handleSell sellSucceeded
  cases pt with
  | none => exact Or.inl ⟨rfl, rfl⟩
  | some tok =>
    dsimp
    by_cases hta : tok.tokenAddress ≠ ta
    · rw [if_pos hta]; exact Or.inl ⟨rfl, rfl⟩
    · rw [if_neg hta]
      by_cases hbal : bal = 0
      · rw [if_pos hbal]; exact Or.inl ⟨rfl, rfl⟩
      · rw [if_neg hbal]
        cases qf bal with
        | none => exact Or.inl ⟨rfl, rfl⟩
        | some q =>
          cases sw with
          | false => exact Or.inl ⟨rfl, rfl⟩
          | true =>
            cases snd with
            | confirmedErr => exact Or.inl ⟨rfl, rfl⟩
            | confirmedOk => exact Or.inr ⟨_, _, rfl, rfl⟩
            | thrown tc hs fo bi => exact Or.inl ⟨rfl, rfl⟩

/-! ## Claim theorems -/

/-- Claim C1, counterexample. In the monitoring loop, a quick-sell trigger
whose `handleSell` fails (here: no sell route) still ends the tick with
`purchasedToken = null`: the failed close destroys the Position (and leaves
the price history behind), contradicting the claim that on every execution
path, including the periodic monitoring loop's triggers, a failed close
leaves the existing Position unchanged. -/
theorem monitorTick_failedSell_clears_position :
    (handleSell ⟨some ⟨"T", 0, 0, 1, 5, 1, none⟩, [⟨0, 1⟩, ⟨10000, 2⟩]⟩ "T"
        "Quick sell - 50% gain" ⟨5, fun _ => none, true, .confirmedOk⟩).2
      = .noRoutes ∧
    monitorTick ⟨some ⟨"T", 0, 0, 1, 5, 1, none⟩, [⟨0, 1⟩]⟩ 10000 (some 2)
        ⟨5, fun _ => none, true, .confirmedOk⟩
      = ⟨none, [⟨0, 1⟩, ⟨10000, 2⟩]⟩ := by
  refine ⟨?_, ?_⟩
  · norm_num [handleSell]
  · norm_num [monitorTick, tickDecision, decideSell, getPriceAtTime, trunc720,
      handleSell, quickTrigger]

/-- Claim C1, amended: `handlePurchase` leaves the state unchanged on every
failed open and creates the Position exactly on a successful buy
confirmation; `handleSell` leaves the state unchanged on every failed close
and destroys the Position exactly on a successful sell confirmation; but in
the monitoring tick, once a quick-sell or strategic-sell trigger fires, the
slot is cleared regardless of whether the sell succeeded. -/
theorem position_transitions_amended :
    (∀ s ta md now amt env,
       buySucceeded (handlePurchase s ta md now amt env).2 = false →
       (handlePurchase s ta md now amt env).1 = s) ∧
    (∀ s ta md now amt env tok q,
       (handlePurchase s ta md now amt env).2 = .purchased tok q →
       (handlePurchase s ta md now amt env).1.purchasedToken = some tok) ∧
    (∀ s ta reason env,
       sellSucceeded (handleSell s ta reason env).2 = false →
       (handleSell s ta reason env).1 = s) ∧
    (∀ s ta reason env,
       sellSucceeded (handleSell s ta reason env).2 = true →
       (handleSell s ta reason env).1 = ⟨none, []⟩) ∧
    (∀ s tok now cur env, s.purchasedToken = some tok →
       tickDecision tok (trunc720 (s.priceHistory ++ [⟨now, cur⟩])) now cur ≠ .hold →
       (monitorTick s now (some cur) env).purchasedToken = none) := by
  refine ⟨?_, ?_, ?_, ?_, ?_⟩
  · intro s ta md now amt env hf
    rcases handlePurchase_cases s ta md now amt env with ⟨h1, _⟩ | ⟨tok, q, h2, _⟩
    · exact h1
    · rw [h2] at hf; exact absurd hf (by simp [buySucceeded])
  · intro s ta md now amt env tok q hp
    rcases handlePurchase_cases s ta md now amt env with ⟨_, h1⟩ | ⟨tok2, q2, h2, hst⟩
    · rw [hp] at h1; exact absurd h1 (by simp [buySucceeded])
    · rw [hp] at h2
      obtain ⟨rfl, rfl⟩ : tok = tok2 ∧ q = q2 := by
        cases h2; exact ⟨rfl, rfl⟩
      rw [hst]
  · intro s ta reason env hf
    rcases handleSell_cases s ta reason env with ⟨h1, _⟩ | ⟨sr, p, h2, _⟩
    · exact h1
    · rw [h2] at hf; exact absurd hf (by simp [sellSucceeded])
  · intro s ta reason env hs
    rcases handleSell_cases s ta reason env with ⟨_, h1⟩ | ⟨sr, p, h2, hst⟩
    · rw [hs] at h1; cases h1
    · exact hst
  · intro s tok now cur env hpt hnh
    obtain ⟨pt, ph⟩ := s
    dsimp at hpt
    subst hpt
    unfold monitorTick
    dsimp at hnh ⊢
    cases hd : tickDecision tok (trunc720 (ph ++ [⟨now, cur⟩])) now cur with
    | quickSell => simp [hd]
    | strategicSell r => simp [hd]
    | hold => exact absurd hd hnh

/-- Claim C1 amended, witness. -/
theorem position_transitions_amended_witness :
    buySucceeded (handlePurchase ⟨none, []⟩ "T" none 0 1
        ⟨0, none, true, .confirmedOk, 0, 0⟩).2 = false ∧
    (handlePurchase ⟨none, []⟩ "T" none 0 1
        ⟨0, none, true, .confirmedOk, 0, 0⟩).1 = ⟨none, []⟩ ∧
    sellSucceeded (handleSell ⟨none, []⟩ "T" "Manual"
        ⟨0, fun _ => none, true, .confirmedOk⟩).2 = false ∧
    (handleSell ⟨none, []⟩ "T" "Manual"
        ⟨0, fun _ => none, true, .confirmedOk⟩).1 = ⟨none, []⟩ :=
  by
  refine ⟨?_, ?_, ?_, ?_⟩
  · norm_num [handlePurchase, buySucceeded]
  · exact position_transitions_amended.1 ⟨none, []⟩ "T" none 0 1
      ⟨0, none, true, .confirmedOk, 0, 0⟩ (by norm_num [handlePurchase, buySucceeded])
  · norm_num [handleSell, sellSucceeded]
  · exact position_transitions_amended.2.2.1 ⟨none, []⟩ "T" "Manual"
      ⟨0, fun _ => none, true, .confirmedOk⟩ (by norm_num [handleSell, sellSucceeded])

/-- Claim C3, counterexample. A sell whose send/confirm phase throws a
timeout-class error — with a transaction id obtained and with independently
recoverable on-chain data — is reported failed immediately: `handleSell`
has no timeout-recovery path, refuting the claim's "every execute operation
(buy or sell)". -/
theorem handleSell_timeout_no_recovery :
    handleSell ⟨some ⟨"T", 0, 0, 1, 5, 1, none⟩, [⟨0, 1⟩]⟩ "T" "Manual"
        ⟨5, fun _ => some 7, true, .thrown true true true true⟩
      = (⟨some ⟨"T", 0, 0, 1, 5, 1, none⟩, [⟨0, 1⟩]⟩, .sellError) :=
  rfl

/-- Claim C3, amended: the timeout-recovery protocol holds for the buy path
only. A thrown buy error leads to a reported purchase exactly when it is
timeout-class, a transaction id was obtained, and the independent
verification (no on-chain error, positive re-read balance) succeeds — in
which case the verified balance is what is recorded and returned; a thrown
sell error is always reported as a failure. -/
theorem buy_timeout_recovery_amended :
    (∀ s ta md now amt bal q p ab tc sig txd bv,
       s.purchasedToken = none → ¬ bal < amt * 1000000000 →
       (buySucceeded (handlePurchase s ta md now amt
           ⟨bal, some q, true, .thrown tc sig txd bv, p, ab⟩).2 = true ↔
         tc = true ∧ sig.isSome = true ∧
           (verifyTransactionSuccess txd bv 0).isSome = true)) ∧
    (∀ s ta md now amt bal q p ab tc sig txd bv tok r,
       s.purchasedToken = none → ¬ bal < amt * 1000000000 →
       (handlePurchase s ta md now amt
           ⟨bal, some q, true, .thrown tc sig txd bv, p, ab⟩).2 = .purchased tok r →
       r = bv ∧ tok.tokenAmount = bv ∧ txd = some ⟨false⟩ ∧ 0 < bv) ∧
    (∀ s ta reason env tc hs fo bi, env.send = SellSend.thrown tc hs fo bi →
       sellSucceeded (handleSell s ta reason env).2 = false) := by
  refine ⟨?_, ?_, ?_⟩
  · intro s ta md now amt bal q p ab tc sig txd bv hpt hbal
    obtain ⟨pt, ph⟩ := s
    subst hpt
    unfold handlePurchase
    dsimp
    rw [if_neg hbal]
    try dsimp
    cases tc with
    | false => simp [buySucceeded]
    | true =>
      cases sig with
      | none => simp [buySucceeded]
      | some sg =>
        dsimp
        cases hv : verifyTransactionSuccess txd bv 0 with
        | none => simp [buySucceeded, hv]
        | some vb => simp [buySucceeded, hv]
  · intro s ta md now amt bal q p ab tc sig txd bv tok r hpt hbal hres
    obtain ⟨pt, ph⟩ := s
    subst hpt
    unfold handlePurchase at hres
    dsimp at hres
    rw [if_neg hbal] at hres
    try dsimp at hres
    cases tc with
    | false => simp at hres
    | true =>
      cases sig with
      | none => simp at hres
      | some sg =>
        dsimp at hres
        cases hv : verifyTransactionSuccess txd bv 0 with
        | none => rw [hv] at hres; simp at hres
        | some vb =>
          rw [hv] at hres
          try dsimp at hres
          obtain ⟨htxd, hbv, hvb⟩ := verify_some_elim txd bv vb hv
          injection hres with htok hr
          subst hvb
          subst hr
          exact ⟨rfl, by rw [← htok], htxd, hbv⟩
  · intro s ta reason env tc hs fo bi hsend
    obtain ⟨pt, ph⟩ := s
    obtain ⟨bal, qf, sw, snd⟩ := env
    subst hsend
    unfold handleSell sellSucceeded
    cases pt with
    | none => rfl
    | some tok =>
      dsimp
      by_cases hta : tok.tokenAddress ≠ ta
      · rw [if_pos hta]
      · rw [if_neg hta]
        by_cases hbal : bal = 0
        · rw [if_pos hbal]
        · rw [if_neg hbal]
          cases qf bal with
          | none => rfl
          | some q => cases sw <;> rfl

/-- Claim C3 amended, witness. -/
theorem buy_timeout_recovery_amended_witness :
    (⟨none, ([] : List PriceSample)⟩ : TraderState).purchasedToken = none ∧
    ¬ (10000000000 : ℚ) < 1 * 1000000000 ∧
    (buySucceeded (handlePurchase ⟨none, []⟩ "T" none 0 1
        ⟨10000000000, some 5, true, .thrown true (some "sig") (some ⟨false⟩) 37, 3, 0⟩).2
        = true ↔
      true = true ∧ (some "sig").isSome = true ∧
        (verifyTransactionSuccess (some ⟨false⟩) 37 0).isSome = true) := by
  refine ⟨rfl, by norm_num, ?_⟩
  exact buy_timeout_recovery_amended.1 ⟨none, []⟩ "T" none 0 1 10000000000 5 3 0
    true (some "sig") (some ⟨false⟩) 37 rfl (by norm_num)

/-- Claim C5: `handlePurchase` while a token is held always fails with the
"Already holding" rejection naming the held token — regardless of whether
the requested token equals the held one — and returns the state (Position
record and price history) completely unchanged. -/
theorem handlePurchase_alreadyHeld (s : TraderState) (t : PurchasedToken)
    (ta : String) (md : Option Int) (now : Int) (amt : ℚ) (env : BuyEnv)
    (h : s.purchasedToken = some t) :
    handlePurchase s ta md now amt env = (s, .alreadyHolding t.tokenAddress) := by
  unfold handlePurchase
  rw [h]

/-- Claim C5, witness (the requested token differs from the held one). -/
theorem handlePurchase_alreadyHeld_witness :
    (⟨some ⟨"T", 0, 0, 1, 5, 1, none⟩, [⟨0, 1⟩]⟩ : TraderState).purchasedToken
      = some ⟨"T", 0, 0, 1, 5, 1, none⟩ ∧
    handlePurchase ⟨some ⟨"T", 0, 0, 1, 5, 1, none⟩, [⟨0, 1⟩]⟩ "U" none 7 1
        ⟨10000000000, some 100, true, .confirmedOk, 3, 37⟩
      = (⟨some ⟨"T", 0, 0, 1, 5, 1, none⟩, [⟨0, 1⟩]⟩, .alreadyHolding "T") :=
  ⟨rfl, handlePurchase_alreadyHeld ⟨some ⟨"T", 0, 0, 1, 5, 1, none⟩, [⟨0, 1⟩]⟩
    ⟨"T", 0, 0, 1, 5, 1, none⟩ "U" none 7 1
    ⟨10000000000, some 100, true, .confirmedOk, 3, 37⟩ rfl⟩

/-- Claim C6: the configured `excluded_tokens` denylist is never consulted.
A token on the denylist, with the slot empty, is not rejected: the purchase
is attempted and (with a successful swap) recorded — in both the
full-featured trader and the simulated variant (which checks only its
already-purchased map, here empty). -/
theorem excluded_token_purchase_proceeds :
    excluded_tokens.contains "Ey2zpSAJ5gVLfYDD5WjccbksJD3E9jPFMPaJ8wxvpump" = true ∧
    (handlePurchase ⟨none, []⟩ "Ey2zpSAJ5gVLfYDD5WjccbksJD3E9jPFMPaJ8wxvpump" none 0 1
        ⟨10000000000, some 100, true, .confirmedOk, 3, 37⟩).2
      = .purchased
          ⟨"Ey2zpSAJ5gVLfYDD5WjccbksJD3E9jPFMPaJ8wxvpump", 0, 0, 3, 37, 1, some 3⟩ 100 ∧
    (simHandlePurchase [] "Ey2zpSAJ5gVLfYDD5WjccbksJD3E9jPFMPaJ8wxvpump"
        10000000000 1 0).2 = .simulated := by
  refine ⟨rfl, ?_, ?_⟩
  · norm_num [handlePurchase]
  · norm_num [simHandlePurchase]

/-- Claim C7, counterexample. On the normal successful buy path the actual
re-read balance (37) is recorded as `tokenAmount`, but the operation's
returned `outAmount` is the quote's value (100), not the independently read
settled balance — refuting "is what the operation returns as
settledAmount". -/
theorem purchase_returns_quote_not_balance :
    (handlePurchase ⟨none, []⟩ "T" none 0 1
        ⟨10000000000, some 100, true, .confirmedOk, 3, 37⟩).2
      = .purchased ⟨"T", 0, 0, 3, 37, 1, some 3⟩ 100 ∧ (100 : ℚ) ≠ 37 := by
  constructor
  · norm_num [handlePurchase]
  · norm_num

/-- Claim C7, amended: on the normal successful buy the re-read post-trade
balance is recorded as the Position's `tokenAmount` while the returned
`outAmount` is the quoted estimate; on the timeout-recovery path the
returned amount equals the recorded verified balance; a close consults the
sell quote exactly at the freshly re-read current token balance (so it
sells the on-ledger balance, not the originally quoted amount), and its
reported `solReceived` is the quoted output over 1e9. -/
theorem settled_amounts_amended :
    (∀ s ta md now amt env tok q, env.send = SendOutcome.confirmedOk →
       (handlePurchase s ta md now amt env).2 = .purchased tok q →
       tok.tokenAmount = env.actualBalance ∧ env.quoteOut = some q) ∧
    (∀ s ta md now amt env tok q tc sig txd bv,
       env.send = SendOutcome.thrown tc sig txd bv →
       (handlePurchase s ta md now amt env).2 = .purchased tok q →
       q = tok.tokenAmount ∧ verifyTransactionSuccess txd bv 0 = some q) ∧
    (∀ s ta reason bal f g sw snd, f bal = g bal →
       handleSell s ta reason ⟨bal, f, sw, snd⟩ = handleSell s ta reason ⟨bal, g, sw, snd⟩) ∧
    (∀ s ta reason env sr p r,
       (handleSell s ta reason env).2 = .sold sr p r →
       ∃ q, env.quoteOut env.currentTokenBalance = some q ∧ sr = q / 1000000000) := by
  refine ⟨?_, ?_, ?_, ?_⟩
  · intro s ta md now amt env tok q hsend hres
    obtain ⟨pt, ph⟩ := s
    obtain ⟨bal, qo, sw, snd, price, ab⟩ := env
    subst hsend
    unfold handlePurchase at hres
    cases pt with
    | some t => cases hres
    | none =>
      dsimp at hres
      by_cases hbal : bal < amt * 1000000000
      · rw [if_pos hbal] at hres; cases hres
      · rw [if_neg hbal] at hres
        cases qo with
        | none => cases hres
        | some q2 =>
          cases sw with
          | false => cases hres
          | true =>
            injection hres with htok hq
            subst htok; subst hq
            exact ⟨rfl, rfl⟩
  · intro s ta md now amt env tok q tc sig txd bv hsend hres
    obtain ⟨pt, ph⟩ := s
    obtain ⟨bal, qo, sw, snd, price, ab⟩ := env
    subst hsend
    unfold handlePurchase at hres
    cases pt with
    | some t => cases hres
    | none =>
      dsimp at hres
      by_cases hbal : bal < amt * 1000000000
      · rw [if_pos hbal] at hres; cases hres
      · rw [if_neg hbal] at hres
        cases qo with
        | none => cases hres
        | some q2 =>
          cases sw with
          | false => cases hres
          | true =>
            cases tc with
            | false => cases hres
            | true =>
              cases sig with
              | none => cases hres
              | some sg =>
                dsimp at hres
                cases hv : verifyTransactionSuccess txd bv 0 with
                | none => rw [hv] at hres; cases hres
                | some vb =>
                  rw [hv] at hres
                  injection hres with htok hq
                  subst htok; subst hq
                  exact ⟨rfl, rfl⟩
  · intro s ta reason bal f g sw snd hfg
    obtain ⟨pt, ph⟩ := s
    unfold handleSell
    cases pt with
    | none => rfl
    | some tok =>
      dsimp
      by_cases hta : tok.tokenAddress ≠ ta
      · simp only [if_pos hta]
      · simp only [if_neg hta]
        by_cases hbal : bal = 0
        · simp only [if_pos hbal]
        · simp only [if_neg hbal, hfg]
  · intro s ta reason env sr p r hres
    obtain ⟨pt, ph⟩ := s
    obtain ⟨bal, qf, sw, snd⟩ := env
    unfold handleSell at hres
    cases pt with
    | none => cases hres
    | some tok =>
      dsimp at hres
      by_cases hta : tok.tokenAddress ≠ ta
      · rw [if_pos hta] at hres; cases hres
      · rw [if_neg hta] at hres
        by_cases hbal : bal = 0
        · rw [if_pos hbal] at hres; cases hres
        · rw [if_neg hbal] at hres
          cases hq : qf bal with
          | none => rw [hq] at hres; cases hres
          | some q =>
            rw [hq] at hres
            cases sw with
            | false => cases hres
            | true =>
              cases snd with
              | confirmedErr => cases hres
              | thrown tc hs fo bi => cases hres
              | confirmedOk =>
                injection hres with hsr hp hr
                exact ⟨q, hq, hsr.symm⟩

/-- Claim C7 amended, witness. -/
theorem settled_amounts_amended_witness :
    (⟨"T", 0, 0, 3, 37, 1, some 3⟩ : PurchasedToken).tokenAmount
        = (⟨10000000000, some 100, true, .confirmedOk, 3, 37⟩ : BuyEnv).actualBalance ∧
    (⟨10000000000, some 100, true, .confirmedOk, 3, 37⟩ : BuyEnv).quoteOut = some 100 :=
  settled_amounts_amended.1 ⟨none, []⟩ "T" none 0 1
    ⟨10000000000, some 100, true, .confirmedOk, 3, 37⟩ ⟨"T", 0, 0, 3, 37, 1, some 3⟩
    100 rfl (by norm_num [handlePurchase])

/-- Claim C10: with no held token or an empty price history, `decideSell`
returns the degenerate record `{sellAt := "no data", returnRate := 0,
finalCapital := 0}`; the marker "no data" is distinct from "hold" and from
both sell reasons, so the monitoring loop's guard
`sellDecision.sellAt !== "hold"` would classify the no-data result as a
sell trigger. -/
theorem decideSell_no_data (s : TraderState) (now : Int) (currentPrice capital : ℚ)
    (h : s.purchasedToken = none ∨ s.priceHistory = []) :
    decideSell s now currentPrice capital = ⟨"no data", 0, 0⟩ ∧
    ("no data" : String) ≠ "hold" ∧
    ("no data" : String) ≠ "10m (drop detected)" ∧
    ("no data" : String) ≠ "10m (pre-20m drop)" ∧
    (decideSell s now currentPrice capital).sellAt ≠ "hold" := by
  have hd : decideSell s now currentPrice capital = ⟨"no data", 0, 0⟩ := by
    obtain ⟨pt, ph⟩ := s
    rcases h with h | h
    · have hpt : pt = none := h
      subst hpt
      rfl
    · have hph : ph = [] := h
      subst hph
      cases pt with
      | none => rfl
      | some tok => rfl
  refine ⟨hd, by decide, by decide, by decide, ?_⟩
  rw [hd]
  decide

lemma decideSell_cons (tok : PurchasedToken) (h : List PriceSample) (hne : h ≠ [])
    (now : Int) (cur cap : ℚ) :
    decideSell ⟨some tok, h⟩ now cur cap =
      if specR h now 10 cur < specR h now 5 cur ∧ 0 < specR h now 10 cur then
        ⟨"10m (drop detected)", specR h now 10 cur, cap * specR h now 10 cur⟩
      else if specR h now 20 cur < specR h now 10 cur ∧ 0 < specR h now 10 cur then
        ⟨"10m (pre-20m drop)", specR h now 10 cur, cap * specR h now 10 cur⟩
      else ⟨"hold", if 0 < tok.purchasePrice then cur / tok.purchasePrice else 0,
        cap * if 0 < tok.purchasePrice then cur / tok.purchasePrice else 0⟩ := by
  unfold decideSell specR
  dsimp
  rw [if_neg (by simp [hne])]

/-- Claim C2, counterexample. With entry price `0` (possible: the spec
itself allows a zero `entryPrice` when price sampling failed at fill time)
and a positive current price, the tick's quick-sell fires (JS division by
zero yields `Infinity ≥ 1.5`), while the decision exactly as the claim
states it — `currentPrice / entryPrice ≥ 1.5` read as a ratio, which with a
zero denominator is not `≥ 1.5` — falls through the trend rules and holds
on a flat history. -/
theorem tickDecision_zeroEntry_counterexample :
    tickDecision ⟨"T", 0, 0, 0, 5, 1, none⟩ [⟨0, 1⟩] 0 1 = .quickSell ∧
    specTickDecision 0 [⟨0, 1⟩] 0 1 = .hold := by
  constructor
  · norm_num [tickDecision, quickTrigger]
  · norm_num [specTickDecision, specR, getPriceAtTime]

/-- Claim C2, amended: on every tick with a held token and a non-empty
history, the tick's decision equals the claim's decision with the quick
rule taken under the source language's division semantics (`quickTrigger`:
ratio test for a positive entry price, and an automatic trigger for a zero
entry price with positive current price); the trend rules and their order
are exactly as claimed. -/
theorem tickDecision_amended (tok : PurchasedToken) (h : List PriceSample)
    (now : Int) (cur : ℚ) (hne : h ≠ []) :
    tickDecision tok h now cur = specTickDecisionAmended tok.purchasePrice h now cur := by
  unfold tickDecision specTickDecisionAmended
  by_cases hq : quickTrigger cur tok.purchasePrice = true
  · rw [if_pos hq, if_pos hq]
  · rw [if_neg hq, if_neg hq]
    dsimp only
    rw [decideSell_cons tok h hne now cur tok.solAmount]
    by_cases h1 : specR h now 10 cur < specR h now 5 cur ∧ 0 < specR h now 10 cur
    · rw [if_pos h1, if_pos h1]
      simp
    · rw [if_neg h1, if_neg h1]
      by_cases h2 : specR h now 20 cur < specR h now 10 cur ∧ 0 < specR h now 10 cur
      · rw [if_pos h2, if_pos h2]
        simp
      · rw [if_neg h2, if_neg h2]
        simp

/-- Claim C2 amended, witness (a boundary quick-gain tick: current price
exactly 1.5 times the entry price). -/
theorem tickDecision_amended_witness :
    ([⟨0, 1⟩] : List PriceSample) ≠ [] ∧
    tickDecision ⟨"T", 0, 0, 1, 5, 1, none⟩ [⟨0, 1⟩] 0 (3 / 2)
      = specTickDecisionAmended 1 [⟨0, 1⟩] 0 (3 / 2) := by
  refine ⟨by simp, ?_⟩
  exact tickDecision_amended ⟨"T", 0, 0, 1, 5, 1, none⟩ [⟨0, 1⟩] 0 (3 / 2) (by simp)

lemma trunc720_length (h : List PriceSample) :
    (trunc720 h).length = min h.length 720 := by
  unfold trunc720
  split_ifs with hl
  · simp only [List.length_drop]
    omega
  · omega

lemma trunc720_eq_self (h : List PriceSample) (hle : h.length ≤ 720) :
    trunc720 h = h := by
  unfold trunc720
  rw [if_neg (by omega)]

lemma trunc720_drop (h : List PriceSample) : ∃ k, trunc720 h = h.drop k := by
  unfold trunc720
  split_ifs
  · exact ⟨h.length - 720, rfl⟩
  · exact ⟨0, (List.drop_zero h).symm⟩

/-- Claim C9: the monitoring tick is a no-op while no token is held; a
price-fetch failure changes nothing; a successful sample appends exactly
one `{timestamp, price}` entry (when no sell trigger fires); the history
is then truncated to the most recent 720 samples so its length never
exceeds 720; and the final history is always a suffix of the appended
history — the oldest entries are the ones evicted. -/
theorem monitorTick_history_invariant :
    (∀ s now f e, s.purchasedToken = none → monitorTick s now f e = s) ∧
    (∀ s now e, monitorTick s now none e = s) ∧
    (∀ s now cur e, s.priceHistory.length ≤ 720 →
       (monitorTick s now (some cur) e).priceHistory.length ≤ 720) ∧
    (∀ (s : TraderState) (tok : PurchasedToken) (now : Int) (cur : ℚ) (e : SellEnv),
       s.purchasedToken = some tok →
       s.priceHistory.length < 720 →
       tickDecision tok (s.priceHistory ++ [⟨now, cur⟩]) now cur = .hold →
       monitorTick s now (some cur) e = ⟨some tok, s.priceHistory ++ [⟨now, cur⟩]⟩) ∧
    (∀ (s : TraderState) (tok : PurchasedToken) (now : Int) (cur : ℚ) (e : SellEnv),
       s.purchasedToken = some tok →
       ∃ k, (monitorTick s now (some cur) e).priceHistory
         = (s.priceHistory ++ [(⟨now, cur⟩ : PriceSample)]).drop k) := by
  refine ⟨?_, ?_, ?_, ?_, ?_⟩
  · intro s now f e h
    obtain ⟨pt, ph⟩ := s
    cases pt with
    | none => rfl
    | some t => exact absurd h (by simp)
  · intro s now e
    obtain ⟨pt, ph⟩ := s
    cases pt <;> rfl
  · intro s now cur e hle
    obtain ⟨pt, ph⟩ := s
    cases pt with
    | none => exact hle
    | some tok =>
      unfold monitorTick
      dsimp
      cases hd : tickDecision tok (trunc720 (ph ++ [⟨now, cur⟩])) now cur with
      | hold =>
        dsimp
        rw [trunc720_length]
        omega
      | quickSell =>
        dsimp only
        rcases handleSell_cases ⟨some tok, trunc720 (ph ++ [⟨now, cur⟩])⟩
            tok.tokenAddress "Quick sell - 50% gain" e with ⟨h1, _⟩ | ⟨sr, p, _, h1⟩ <;>
          · rw [h1]
            dsimp
            first
              | (rw [trunc720_length]; omega)
              | omega
      | strategicSell r =>
        dsimp only
        rcases handleSell_cases ⟨some tok, trunc720 (ph ++ [⟨now, cur⟩])⟩
            tok.tokenAddress ("Strategic sell - " ++ r) e with ⟨h1, _⟩ | ⟨sr, p, _, h1⟩ <;>
          · rw [h1]
            dsimp
            first
              | (rw [trunc720_length]; omega)
              | omega
  · intro s tok now cur e hpt hlt hdec
    obtain ⟨pt, ph⟩ := s
    have hpt2 : pt = some tok := hpt
    subst hpt2
    unfold monitorTick
    dsimp at hlt hdec ⊢
    rw [trunc720_eq_self (ph ++ [(⟨now, cur⟩ : PriceSample)]) (by simp; omega)]
    rw [hdec]
  · intro s tok now cur e hpt
    obtain ⟨pt, ph⟩ := s
    have hpt2 : pt = some tok := hpt
    subst hpt2
    unfold monitorTick
    dsimp
    cases hd : tickDecision tok (trunc720 (ph ++ [⟨now, cur⟩])) now cur with
    | hold =>
      dsimp
      exact trunc720_drop (ph ++ [⟨now, cur⟩])
    | quickSell =>
      dsimp only
      rcases handleSell_cases ⟨some tok, trunc720 (ph ++ [⟨now, cur⟩])⟩
          tok.tokenAddress "Quick sell - 50% gain" e with ⟨h1, _⟩ | ⟨sr, p, _, h1⟩
      · rw [h1]
        exact trunc720_drop (ph ++ [⟨now, cur⟩])
      · rw [h1]
        exact ⟨(ph ++ [(⟨now, cur⟩ : PriceSample)]).length, (List.drop_length _).symm⟩
    | strategicSell r =>
      dsimp only
      rcases handleSell_cases ⟨some tok, trunc720 (ph ++ [⟨now, cur⟩])⟩
          tok.tokenAddress ("Strategic sell - " ++ r) e with ⟨h1, _⟩ | ⟨sr, p, _, h1⟩
      · rw [h1]
        exact trunc720_drop (ph ++ [⟨now, cur⟩])
      · rw [h1]
        exact ⟨(ph ++ [(⟨now, cur⟩ : PriceSample)]).length, (List.drop_length _).symm⟩

/-- Claim C9, witness. -/
theorem monitorTick_history_invariant_witness :
    (⟨none, []⟩ : TraderState).purchasedToken = none ∧
    monitorTick ⟨none, []⟩ 0 (some 1) ⟨0, fun _ => none, true, .confirmedOk⟩
      = ⟨none, []⟩ ∧
    ((⟨some ⟨"T", 0, 0, 1, 5, 1, none⟩, [⟨0, 1⟩]⟩ : TraderState).priceHistory.length ≤ 720 ∧
      (monitorTick ⟨some ⟨"T", 0, 0, 1, 5, 1, none⟩, [⟨0, 1⟩]⟩ 10000 (some 1)
        ⟨5, fun _ => none, true, .confirmedOk⟩).priceHistory.length ≤ 720) := by
  refine ⟨rfl, ?_, by norm_num, ?_⟩
  · exact monitorTick_history_invariant.1 ⟨none, []⟩ 0 (some 1)
      ⟨0, fun _ => none, true, .confirmedOk⟩ rfl
  · exact monitorTick_history_invariant.2.2.1 ⟨some ⟨"T", 0, 0, 1, 5, 1, none⟩, [⟨0, 1⟩]⟩
      10000 1 ⟨5, fun _ => none, true, .confirmedOk⟩ (by norm_num)

/-- Claim C10, witness. -/
theorem decideSell_no_data_witness :
    ((⟨none, []⟩ : TraderState).purchasedToken = none ∨
      (⟨none, []⟩ : TraderState).priceHistory = []) ∧
    decideSell ⟨none, []⟩ 0 1 1 = ⟨"no data", 0, 0⟩ ∧
    (decideSell ⟨none, []⟩ 0 1 1).sellAt ≠ "hold" :=
  ⟨Or.inl rfl, (decideSell_no_data ⟨none, []⟩ 0 1 1 (Or.inl rfl)).1,
    (decideSell_no_data ⟨none, []⟩ 0 1 1 (Or.inl rfl)).2.2.2.2⟩


/-- Claim C8, counterexample. Two refutations at concrete inputs: (1) the
case-insensitive dexscreener regex accepts characters outside the base58
alphabet, and its `pump`-suffixed capture bypasses decoding, so a text with
no base58-alphabet substring of length 32–44 still extracts an address;
(2) when a dexscreener link follows an earlier plain valid address, the
extracted address is the link's capture, not the first syntactically valid
match of the base58 scan. -/
theorem extract_counterexample :
    hasValid32Window "dexscreener.com/solana/OOOOOOOOOOOOOOOOOOOOOOOOOOOOpump".toList
      = false ∧
    extractSolanaAddresses "dexscreener.com/solana/OOOOOOOOOOOOOOOOOOOOOOOOOOOOpump".toList
      = some "OOOOOOOOOOOOOOOOOOOOOOOOOOOOpump".toList ∧
    extractSolanaAddresses
        ("22222222222222222222222222222222 dexscreener.com/solana/11111111111111111111111111111111").toList
      = some "11111111111111111111111111111111".toList ∧
    scanValid
        ("22222222222222222222222222222222 dexscreener.com/solana/11111111111111111111111111111111").toList 0
      = some "22222222222222222222222222222222".toList ∧
    "11111111111111111111111111111111".toList ≠ "22222222222222222222222222222222".toList := by
  refine ⟨by decide, by decide, by decide, by decide, by decide⟩

/-- Claim C8, amended: when no dexscreener-link capture is accepted,
`extract` returns none on every text without a base58-alphabet substring of
length 32 (hence none of length 32–44) and otherwise returns exactly the
first syntactically valid match of the base58 scan; every returned address
has length in `[32,44]` and either carries the `pump` suffix or consists of
base58-alphabet characters (decodes cleanly); but an accepted
dexscreener-link capture is preferred over the scan. -/
theorem extract_amended :
    (∀ t, dexAccepted t = none → hasValid32Window t = false →
       extractSolanaAddresses t = none) ∧
    (∀ t a, extractSolanaAddresses t = some a →
       32 ≤ a.length ∧ a.length ≤ 44 ∧
         (endsPump a = true ∨ a.all isB58 = true)) ∧
    (∀ t, dexAccepted t = none → extractSolanaAddresses t = scanValid t 0) := by
  refine ⟨?_, ?_, ?_⟩
  · intro t hda hw
    rw [extract_eq_scan t hda]
    exact scanValid_of_no_window t hw 0
  · intro t a h
    unfold extractSolanaAddresses at h
    by_cases h0 : t.length = 0
    · rw [if_pos h0] at h; cases h
    · rw [if_neg h0] at h
      cases hdex : dexFirst t with
      | some cap =>
        rw [hdex] at h
        dsimp only at h
        by_cases hv : isValidSolanaAddress cap = true
        · rw [if_pos hv] at h
          injection h with h
          subst h
          exact isValid_elim cap hv
        · rw [if_neg hv] at h
          unfold scanValid at h
          obtain ⟨h1, h2, h3, _⟩ := scanValidGo_sound t _ 0 a h
          exact ⟨h1, h2, Or.inr h3⟩
      | none =>
        rw [hdex] at h
        dsimp only at h
        unfold scanValid at h
        obtain ⟨h1, h2, h3, _⟩ := scanValidGo_sound t _ 0 a h
        exact ⟨h1, h2, Or.inr h3⟩
  · intro t hda
    exact extract_eq_scan t hda

/-- Claim C8 amended, witness. -/
theorem extract_amended_witness :
    extractSolanaAddresses "x 11111111111111111111111111111111 y".toList
      = some "11111111111111111111111111111111".toList ∧
    (32 ≤ ("11111111111111111111111111111111".toList).length ∧
      ("11111111111111111111111111111111".toList).length ≤ 44 ∧
      (endsPump "11111111111111111111111111111111".toList = true ∨
        ("11111111111111111111111111111111".toList).all isB58 = true)) := by
  refine ⟨by decide, ?_⟩
  exact extract_amended.2.1 "x 11111111111111111111111111111111 y".toList
    "11111111111111111111111111111111".toList (by decide)

/-- Claim C4, counterexample. The candidate (32 twos) appears verbatim in
the single re-fetched message, but that message's extraction returns the
earlier address (32 ones), so the verification gate returns none —
refuting "returns the candidate when at least one freshly re-fetched
message text contains it". -/
theorem processMessage_contains_not_extracted :
    extractSolanaAddresses "22222222222222222222222222222222".toList
      = some "22222222222222222222222222222222".toList ∧
    hasSub ("11111111111111111111111111111111 22222222222222222222222222222222").toList
      ("22222222222222222222222222222222").toList = true ∧
    processMessage "22222222222222222222222222222222".toList
      (some [("11111111111111111111111111111111 22222222222222222222222222222222").toList])
      = none := by
  refine ⟨by decide, by decide, by decide⟩

/-- Claim C4, amended: the gate fails closed (a failed channel fetch gives
none); it returns the candidate iff some freshly re-fetched message
extracts to the candidate — mere substring containment is not enough; and
it does return none whenever every re-fetched message omits the candidate
as a substring (extraction only ever returns substrings of its input). -/
theorem processMessage_amended :
    (∀ text, processMessage text none = none) ∧
    (∀ text msgs a, extractSolanaAddresses text = some a →
       ((msgs.map extractSolanaAddresses).contains (some a) = true →
         processMessage text (some msgs) = some a) ∧
       ((msgs.map extractSolanaAddresses).contains (some a) = false →
         processMessage text (some msgs) = none)) ∧
    (∀ text msgs a, extractSolanaAddresses text = some a →
       (∀ m ∈ msgs, hasSub m a = false) →
       processMessage text (some msgs) = none) := by
  have hcond : ∀ (text : List Char) (msgs : List (List Char)) (a : List Char),
      extractSolanaAddresses text = some a →
      ((msgs.map extractSolanaAddresses).contains (some a) = true →
        processMessage text (some msgs) = some a) ∧
      ((msgs.map extractSolanaAddresses).contains (some a) = false →
        processMessage text (some msgs) = none) := by
    intro text msgs a hx
    unfold processMessage
    rw [hx]
    dsimp only
    constructor
    · intro hc
      rw [if_pos hc]
    · intro hc
      rw [if_neg (by rw [hc]; simp)]
  refine ⟨?_, hcond, ?_⟩
  · intro text
    unfold processMessage
    cases extractSolanaAddresses text <;> rfl
  · intro text msgs a hx hnone
    refine (hcond text msgs a hx).2 ?_
    by_contra hcon
    rw [Bool.not_eq_false, List.contains_eq_any_beq, List.any_eq_true] at hcon
    obtain ⟨x, hxm, hbeq⟩ := hcon
    rw [beq_iff_eq] at hbeq
    subst hbeq
    obtain ⟨m, hm, hma⟩ := List.mem_map.mp hxm
    have := extract_sub m a hma
    rw [hnone m hm] at this
    cases this

/-- Claim C4 amended, witness. -/
theorem processMessage_amended_witness :
    extractSolanaAddresses "11111111111111111111111111111111".toList
      = some "11111111111111111111111111111111".toList ∧
    processMessage "11111111111111111111111111111111".toList
        (some ["11111111111111111111111111111111".toList])
      = some "11111111111111111111111111111111".toList := by
  refine ⟨by decide, ?_⟩
  exact (processMessage_amended.2.1 "11111111111111111111111111111111".toList
    ["11111111111111111111111111111111".toList]
    "11111111111111111111111111111111".toList (by decide)).1 (by decide)

end SolanaBot
